import Mathlib

/-!
Shallow embedding of the MinIO file cache core (csrc/minio/minio.c, latest
revision): the cache state, the admission path (cache_store), the lookup
path (cache_load), the read-through path (cache_read), flush and contains.

Machine integers: all size_t counters (used, n_ht_entries, statistics) are
modelled as Nat with every atomic fetch-add / fetch-sub reduced modulo 2^64,
matching C unsigned 64-bit wrap-around.

Side effects: shm_open / ftruncate / mmap outcomes and the backing file's
contents are supplied by an explicit environment record, since they depend
on the operating system, not on the cache state.
-/

namespace Minio

/-- Word bound of a 64-bit size_t. -/
def W64 : Nat := 2 ^ 64

/-- Result of a C atomic_fetch_add on a size_t, as the new stored value. -/
def add64 (a b : Nat) : Nat := (a + b) % W64

/-- Result of a C atomic_fetch_sub on a size_t, as the new stored value. -/
def sub64 (a b : Nat) : Nat := (a + (W64 - b % W64)) % W64

/-- Linux errno constant used by cache_store for oversize items. -/
def E2BIG : Nat := 7

/-- Linux errno constant used by cache_read when open(2) fails. -/
def ENOENT : Nat := 2

/-- Linux errno constant used for slot and capacity exhaustion. -/
def ENOMEM : Nat := 12

/-- Linux errno constant used for invalid sizes and oversized loads. -/
def EINVAL : Nat := 22

/-- Linux errno constant used by cache_load on a directory miss. -/
def ENODATA : Nat := 61

/-- Modelled from the spec: MAX_PATH_LEN from minio.h, which is not present
under src/. The spec bounds paths at 128 bytes including the terminator,
so the strncpy bound is 127 characters. -/
def MAX_PATH_LEN : Nat := 127

/-- Character substitution applied by cache_store when deriving the shm
segment name: every slash becomes an underscore. -/
def replSlash (c : Char) : Char := if c = '/' then '_' else c

/-- Effect of strncpy(entry->path, path, MAX_PATH_LEN): the key kept in the
entry table is the path truncated to MAX_PATH_LEN characters. -/
def strncpyPath (p : List Char) : List Char := p.take MAX_PATH_LEN

/-- Shm segment name derived by cache_store: a leading slash followed by the
(truncated) entry path with every slash replaced by an underscore. -/
def shmPathOf (p : List Char) : List Char :=
  '/' :: (strncpyPath p).map replSlash

/-- Entry record of the cache hash table (hash_entry_t): the stored key, the
payload length, and the derived shm segment name. The payload bytes live in
the shm namespace, keyed by shmPath. -/
structure HashEntry where
  path : List Char
  size : Nat
  shmPath : List Char
deriving DecidableEq

/-- Cache state (cache_t): configuration, the two atomic size_t counters,
the directory (hash table keyed by entry path), the host's shm namespace
(segment name to segment bytes), and the five statistics counters. -/
structure CacheState where
  size : Nat
  maxItemSize : Nat
  maxHtEntries : Nat
  used : Nat
  nHtEntries : Nat
  dir : List HashEntry
  shm : List (List Char × List Nat)
  nAccs : Nat
  nHits : Nat
  nMissCold : Nat
  nMissCapacity : Nat
  nFail : Nat

/-- Environment of one call: whether shm_open, ftruncate and mmap succeed,
the errno a failing shm_open or ftruncate reports, and the contents of the
backing file at the path being read (none when open(2) fails). -/
structure Env where
  shmOpenOk : Bool
  ftruncateOk : Bool
  mmapOk : Bool
  errno : Nat
  file : Option (List Nat)

/-- Wellformedness of the environment: a failing POSIX call sets a nonzero
errno, and shm_open or ftruncate never report E2BIG. -/
def Env.wf (env : Env) : Prop := 0 < env.errno ∧ env.errno ≠ E2BIG

/-- HASH_FIND_STR over the directory: first entry whose stored key equals
the queried path. -/
def dirLookup (d : List HashEntry) (p : List Char) : Option HashEntry :=
  d.find? (fun e => e.path == p)

/-- Lookup of a segment in the host shm namespace by name. -/
def shmLookup (m : List (List Char × List Nat)) (k : List Char) :
    Option (List Nat) :=
  (m.find? (fun kv => kv.1 == k)).map Prod.snd

/-- Effect of shm_unlink: the named segment is removed. -/
def shmRemove (m : List (List Char × List Nat)) (k : List Char) :
    List (List Char × List Nat) :=
  m.filter (fun kv => !(kv.1 == k))

/-- Effect of shm_open with O_CREAT: the named segment is created empty if
absent, and kept as is if already present. -/
def shmEnsure (m : List (List Char × List Nat)) (k : List Char) :
    List (List Char × List Nat) :=
  match shmLookup m k with
  | some _ => m
  | none => (k, []) :: m

/-- Effect of ftruncate-to-size followed by memcpy of size bytes: the named
segment now holds exactly the first size bytes of the caller's buffer. -/
def shmSet (m : List (List Char × List Nat)) (k : List Char) (v : List Nat) :
    List (List Char × List Nat) :=
  (k, v) :: shmRemove m k

/-- Translation of cache_store (minio.c): size gate, slot bump without
rollback, byte reservation with rollback on overshoot, segment creation,
copy, and directory insert. Branch states spell out the sequential atomic
updates performed before each early return. -/
def cache_store (env : Env) (c : CacheState) (path : List Char)
    (data : List Nat) (size : Nat) : Int × CacheState :=
  if c.maxItemSize < size then
    (-(E2BIG : Int), c)
  else if c.maxHtEntries ≤ c.nHtEntries then
    (-(ENOMEM : Int), { c with nHtEntries := add64 c.nHtEntries 1 })
  else if c.size < add64 c.used size then
    (-(ENOMEM : Int),
      { c with nHtEntries := add64 c.nHtEntries 1,
               used := sub64 (add64 c.used size) size })
  else if env.shmOpenOk = false then
    (-(env.errno : Int),
      { c with nHtEntries := add64 c.nHtEntries 1,
               used := add64 c.used size })
  else if env.ftruncateOk = false then
    (-(env.errno : Int),
      { c with nHtEntries := add64 c.nHtEntries 1,
               used := add64 c.used size,
               shm := shmRemove (shmEnsure c.shm (shmPathOf path))
                        (shmPathOf path) })
  else if env.mmapOk = false then
    (-(ENOMEM : Int),
      { c with nHtEntries := add64 c.nHtEntries 1,
               used := add64 c.used size,
               shm := shmRemove (shmEnsure c.shm (shmPathOf path))
                        (shmPathOf path) })
  else
    (0, { c with nHtEntries := add64 c.nHtEntries 1,
                 used := add64 c.used size,
                 shm := shmSet (shmEnsure c.shm (shmPathOf path))
                          (shmPathOf path) (data.take size),
                 dir := { path := strncpyPath path, size := size,
                          shmPath := shmPathOf path } :: c.dir })

/-- Translation of cache_load (minio.c): directory lookup, size out-param
written before the bounds check, then the copy from the mapped segment.
Returns the status, the value written to the size out-parameter (none when
the parameter was left untouched) and the bytes copied into the caller's
buffer (none when no copy happened). -/
def cache_load (c : CacheState) (path : List Char) (max : Nat) :
    Int × Option Nat × Option (List Nat) :=
  match dirLookup c.dir path with
  | none => (-(ENODATA : Int), none, none)
  | some e =>
    if max < e.size then
      (-(EINVAL : Int), some e.size, none)
    else
      (0, some e.size,
        some (((shmLookup c.shm e.shmPath).getD []).take e.size))

/-- Statistics bump performed at the top of cache_read. -/
def bumpAccs (c : CacheState) : CacheState :=
  { c with nAccs := add64 c.nAccs 1 }

/-- Direct-I/O request length computed by cache_read: (size | 0xFFF) + 1. -/
def readRequestLen (size : Nat) : Nat := (size ||| 0xFFF) + 1

/-- Tail of cache_read after the embedded cache_store: any store failure is
accounted as a capacity miss, success as a cold miss, and the file's true
size is returned either way. -/
def storeOutcome (size : Nat) (r : Int × CacheState) : Int × CacheState :=
  if r.1 < 0 then
    ((size : Int), { r.2 with nMissCapacity := add64 r.2.nMissCapacity 1 })
  else
    ((size : Int), { r.2 with nMissCold := add64 r.2.nMissCold 1 })

/-- Miss path of cache_read: open the backing file, validate its size, read
it with the rounded direct-I/O request length, and attempt admission. -/
def readMiss (env : Env) (c : CacheState) (path : List Char) (maxSize : Nat) :
    Int × CacheState :=
  match env.file with
  | none => (-(ENOENT : Int), { c with nFail := add64 c.nFail 1 })
  | some f =>
    if maxSize < f.length ∨ f.length = 0 then
      (-(EINVAL : Int), { c with nFail := add64 c.nFail 1 })
    else
      storeOutcome f.length
        (cache_store env c path (f.take (readRequestLen f.length)) f.length)

/-- Dispatch of cache_read on the cache_load status: a non-ENODATA failure
is returned as is, ENODATA falls through to the miss path, and success is
a hit returning the loaded byte count. -/
def loadOutcome (env : Env) (c : CacheState) (path : List Char)
    (maxSize : Nat) (r : Int × Option Nat × Option (List Nat)) :
    Int × CacheState :=
  if r.1 < 0 then
    if r.1 = -(ENODATA : Int) then readMiss env c path maxSize
    else (r.1, c)
  else
    (((r.2.1.getD 0 : Nat) : Int), { c with nHits := add64 c.nHits 1 })

/-- Translation of cache_read (minio.c): bump accesses, try the cache, then
serve from the filesystem and conditionally admit. -/
def cache_read (env : Env) (c : CacheState) (path : List Char)
    (maxSize : Nat) : Int × CacheState :=
  loadOutcome env (bumpAccs c) path maxSize
    (cache_load (bumpAccs c) path maxSize)

/-- Translation of cache_flush (minio.c): unlink the admitted segments,
clear the hash table head (every subsequent lookup misses), and store 0 to
used and n_ht_entries. Configuration and statistics are untouched. -/
def cache_flush (c : CacheState) : CacheState :=
  { c with dir := [],
           shm := c.shm.filter
             (fun kv => !(c.dir.any (fun e => e.shmPath == kv.1))),
           used := 0,
           nHtEntries := 0 }

/-- Translation of cache_contains (minio.c): a directory lookup under the
hash-table spinlock. -/
def cache_contains (c : CacheState) (path : List Char) : Bool :=
  (dirLookup c.dir path).isSome

/-- Sum of the four outcome counters, compared against accesses by the
statistics invariant. -/
def sumStats (c : CacheState) : Nat :=
  c.nHits + c.nMissCold + c.nMissCapacity + c.nFail

/-- A 64-bit fetch-add that does not overflow is plain addition. -/
lemma add64_eq_of_lt {a b : Nat} (h : a + b < W64) : add64 a b = a + b :=
  Nat.mod_eq_of_lt h

/-- Rolling back a 64-bit reservation restores the previous value exactly,
including when the fetch-add wrapped. -/
lemma sub64_add64_cancel {a : Nat} (b : Nat) (h : a < W64) :
    sub64 (add64 a b) b = a := by
  unfold sub64 add64 W64 at *
  omega

/-- Statistics counters are untouched by cache_store on every path. -/
lemma cache_store_stats_fixed (env : Env) (c : CacheState) (p : List Char)
    (d : List Nat) (n : Nat) :
    (cache_store env c p d n).2.nAccs = c.nAccs ∧
    (cache_store env c p d n).2.nHits = c.nHits ∧
    (cache_store env c p d n).2.nMissCold = c.nMissCold ∧
    (cache_store env c p d n).2.nMissCapacity = c.nMissCapacity ∧
    (cache_store env c p d n).2.nFail = c.nFail := by
  unfold cache_store
  repeat' split
  all_goals exact ⟨rfl, rfl, rfl, rfl, rfl⟩

/-- Explicit form of a successful cache_store: all gates pass, the slot and
the bytes are reserved, the segment holds the copied bytes, and the entry
is inserted at the head of the directory. -/
lemma cache_store_success (env : Env) (c : CacheState) (p : List Char)
    (d : List Nat) (n : Nat)
    (h1 : n ≤ c.maxItemSize) (h2 : c.nHtEntries < c.maxHtEntries)
    (h3 : add64 c.used n ≤ c.size)
    (h4 : env.shmOpenOk = true) (h5 : env.ftruncateOk = true)
    (h6 : env.mmapOk = true) :
    cache_store env c p d n =
      (0, { c with nHtEntries := add64 c.nHtEntries 1,
                   used := add64 c.used n,
                   shm := shmSet (shmEnsure c.shm (shmPathOf p))
                            (shmPathOf p) (d.take n),
                   dir := { path := strncpyPath p, size := n,
                            shmPath := shmPathOf p } :: c.dir }) := by
  unfold cache_store
  rw [if_neg (by omega), if_neg (by omega), if_neg (by omega),
      if_neg (by simp [h4]), if_neg (by simp [h5]), if_neg (by simp [h6])]

/-- A cache_store that returned 0 must have passed every gate. -/
lemma cache_store_ok_elim (env : Env) (c : CacheState) (p : List Char)
    (d : List Nat) (n : Nat) (henv : 0 < env.errno)
    (hok : (cache_store env c p d n).1 = 0) :
    n ≤ c.maxItemSize ∧ c.nHtEntries < c.maxHtEntries ∧
    add64 c.used n ≤ c.size ∧ env.shmOpenOk = true ∧
    env.ftruncateOk = true ∧ env.mmapOk = true := by
  unfold cache_store at hok
  split_ifs at hok with g1 g2 g3 g4 g5 g6
  · exact absurd hok (by norm_num [E2BIG])
  · exact absurd hok (by norm_num [ENOMEM])
  · exact absurd hok (by norm_num [ENOMEM])
  · simp only [neg_eq_zero, Nat.cast_eq_zero] at hok
    omega
  · simp only [neg_eq_zero, Nat.cast_eq_zero] at hok
    omega
  · exact absurd hok (by norm_num [ENOMEM])
  · refine ⟨by omega, by omega, by omega, ?_, ?_, ?_⟩
    · exact eq_true_of_ne_false g4
    · exact eq_true_of_ne_false g5
    · exact eq_true_of_ne_false g6

/-- Looking up a segment right after it was set finds the new bytes. -/
lemma shmLookup_shmSet (m : List (List Char × List Nat)) (k : List Char)
    (v : List Nat) : shmLookup (shmSet m k v) k = some v := by
  simp [shmLookup, shmSet, List.find?_cons_of_pos]

/-- Looking up a path right after its entry was inserted finds that entry. -/
lemma dirLookup_cons_self (d : List HashEntry) (e : HashEntry) :
    dirLookup (e :: d) e.path = some e := by
  simp [dirLookup, List.find?_cons_of_pos]

/-- Looking up a path whose entry sits at the directory head finds it. -/
lemma dirLookup_cons_of_eq (d : List HashEntry) (e : HashEntry)
    (p : List Char) (h : e.path = p) : dirLookup (e :: d) p = some e := by
  simp [dirLookup, List.find?_cons_of_pos, h]

/-- Bitwise-or with the low 12-bit mask saturates any value below 4096. -/
lemma lor_4095_of_lt {b : Nat} (h : b < 4096) : b ||| 4095 = 4095 := by
  have h12 : (4095 : Nat) = 2 ^ 12 - 1 := by norm_num
  rw [h12]
  apply Nat.eq_of_testBit_eq
  intro i
  rw [Nat.testBit_or, Nat.testBit_two_pow_sub_one]
  by_cases hi : i < 12
  · simp [hi]
  · have hb : b < 2 ^ i := by
      calc b < 4096 := h
        _ = 2 ^ 12 := by norm_num
        _ ≤ 2 ^ i := Nat.pow_le_pow_right (by norm_num) (by omega)
    simp [hi, Nat.testBit_lt_two_pow hb]

/-- Bitwise-or with the low 12-bit mask keeps the 4096-aligned part and
saturates the low bits. -/
lemma lor_4095_eq (s : Nat) : s ||| 4095 = 4096 * (s / 4096) + 4095 := by
  have hmod : s % 4096 < 4096 := Nat.mod_lt s (by norm_num)
  have hmod12 : s % 4096 < 2 ^ 12 := by
    calc s % 4096 < 4096 := hmod
      _ = 2 ^ 12 := by norm_num
  have h4095 : (4095 : Nat) < 2 ^ 12 := by norm_num
  have hsplit : 2 ^ 12 * (s / 4096) + s % 4096 = s := by
    have h1 := Nat.div_add_mod s 4096
    have h2 : (2 : Nat) ^ 12 = 4096 := by norm_num
    omega
  calc s ||| 4095 = (2 ^ 12 * (s / 4096) + s % 4096) ||| 4095 := by
        rw [hsplit]
    _ = (2 ^ 12 * (s / 4096) ||| s % 4096) ||| 4095 := by
        rw [Nat.mul_add_lt_is_or hmod12]
    _ = 2 ^ 12 * (s / 4096) ||| (s % 4096 ||| 4095) := Nat.or_assoc _ _ _
    _ = 2 ^ 12 * (s / 4096) ||| 4095 := by rw [lor_4095_of_lt hmod]
    _ = 2 ^ 12 * (s / 4096) + 4095 := (Nat.mul_add_lt_is_or h4095 _).symm
    _ = 4096 * (s / 4096) + 4095 := by norm_num

/-- The direct-I/O request length is the 4096-byte block count of the size,
plus one more whole block. -/
lemma readRequestLen_eq (s : Nat) : readRequestLen s = 4096 * (s / 4096 + 1) := by
  unfold readRequestLen
  have : (0xFFF : Nat) = 4095 := by norm_num
  rw [this, lor_4095_eq]
  ring

/-- The direct-I/O request length strictly exceeds the true size. -/
lemma lt_readRequestLen (s : Nat) : s < readRequestLen s := by
  rw [readRequestLen_eq]
  have h1 := Nat.div_add_mod s 4096
  have h2 : s % 4096 < 4096 := Nat.mod_lt s (by norm_num)
  omega

/-- The buffer passed from cache_read to cache_store is the whole file: the
rounded direct-I/O request covers every byte. -/
lemma take_readRequestLen (f : List Nat) :
    f.take (readRequestLen f.length) = f :=
  List.take_of_length_le (Nat.le_of_lt (lt_readRequestLen f.length))

/-- Reduction of cache_load when the path has a directory entry. -/
lemma cache_load_found (c : CacheState) (p : List Char) (max : Nat)
    (e : HashEntry) (hfind : dirLookup c.dir p = some e) :
    cache_load c p max =
      if max < e.size then (-(EINVAL : Int), some e.size, none)
      else (0, some e.size,
        some (((shmLookup c.shm e.shmPath).getD []).take e.size)) := by
  unfold cache_load
  rw [hfind]

/-- Reduction of cache_load when the path has no directory entry. -/
lemma cache_load_missing (c : CacheState) (p : List Char) (max : Nat)
    (hmiss : dirLookup c.dir p = none) :
    cache_load c p max = (-(ENODATA : Int), none, none) := by
  unfold cache_load
  rw [hmiss]

/-- Reduction of cache_read on a hit: the cached entry fits the caller's
buffer, hits is bumped, and the entry's size is returned. -/
lemma cache_read_hit_eq (env : Env) (c : CacheState) (p : List Char)
    (maxSize : Nat) (e : HashEntry)
    (hfind : dirLookup c.dir p = some e) (hsz : e.size ≤ maxSize) :
    cache_read env c p maxSize =
      ((e.size : Int), { c with nAccs := add64 c.nAccs 1,
                                nHits := add64 c.nHits 1 }) := by
  have hdir : dirLookup (bumpAccs c).dir p = some e := hfind
  unfold cache_read
  rw [cache_load_found _ _ _ e hdir, if_neg (by omega)]
  unfold loadOutcome
  rw [if_neg (by norm_num)]
  rfl

/-- Reduction of cache_read when the path is not cached and the backing
file cannot be opened: fails is bumped and -ENOENT is returned. -/
lemma cache_read_nofile_eq (env : Env) (c : CacheState) (p : List Char)
    (maxSize : Nat)
    (hmiss : dirLookup c.dir p = none) (hfile : env.file = none) :
    cache_read env c p maxSize =
      (-(ENOENT : Int), { c with nAccs := add64 c.nAccs 1,
                                 nFail := add64 c.nFail 1 }) := by
  have hdir : dirLookup (bumpAccs c).dir p = none := hmiss
  unfold cache_read
  rw [cache_load_missing _ _ _ hdir]
  unfold loadOutcome
  rw [if_pos (by norm_num [ENODATA]), if_pos rfl]
  unfold readMiss
  rw [hfile]
  rfl

/-- Reduction of cache_read when the path is not cached and the backing
file has an unusable size: fails is bumped and -EINVAL is returned. -/
lemma cache_read_badsize_eq (env : Env) (c : CacheState) (p : List Char)
    (maxSize : Nat) (f : List Nat)
    (hmiss : dirLookup c.dir p = none) (hfile : env.file = some f)
    (hbad : maxSize < f.length ∨ f.length = 0) :
    cache_read env c p maxSize =
      (-(EINVAL : Int), { c with nAccs := add64 c.nAccs 1,
                                 nFail := add64 c.nFail 1 }) := by
  have hdir : dirLookup (bumpAccs c).dir p = none := hmiss
  unfold cache_read
  rw [cache_load_missing _ _ _ hdir]
  unfold loadOutcome
  rw [if_pos (by norm_num [ENODATA]), if_pos rfl]
  unfold readMiss
  rw [hfile]
  dsimp only
  rw [if_pos hbad]
  rfl

/-- Reduction of cache_read on a cold miss with a readable file of usable
size: the whole file is read and handed to the embedded cache_store, whose
outcome decides which miss counter is bumped. -/
lemma cache_read_miss_eq (env : Env) (c : CacheState) (p : List Char)
    (maxSize : Nat) (f : List Nat)
    (hmiss : dirLookup c.dir p = none) (hfile : env.file = some f)
    (hpos : 0 < f.length) (hmax : f.length ≤ maxSize) :
    cache_read env c p maxSize =
      storeOutcome f.length (cache_store env (bumpAccs c) p f f.length) := by
  have hdir : dirLookup (bumpAccs c).dir p = none := hmiss
  unfold cache_read
  rw [cache_load_missing _ _ _ hdir]
  unfold loadOutcome
  rw [if_pos (by norm_num [ENODATA]), if_pos rfl]
  unfold readMiss
  rw [hfile]
  dsimp only
  rw [if_neg (by omega), take_readRequestLen]

/-- Projection fact for the accesses bump. -/
@[simp] lemma bumpAccs_maxItemSize (c : CacheState) :
    (bumpAccs c).maxItemSize = c.maxItemSize := rfl

/-- Projection fact for the accesses bump. -/
@[simp] lemma bumpAccs_maxHtEntries (c : CacheState) :
    (bumpAccs c).maxHtEntries = c.maxHtEntries := rfl

/-- Projection fact for the accesses bump. -/
@[simp] lemma bumpAccs_nHtEntries (c : CacheState) :
    (bumpAccs c).nHtEntries = c.nHtEntries := rfl

/-- Projection fact for the accesses bump. -/
@[simp] lemma bumpAccs_used (c : CacheState) : (bumpAccs c).used = c.used := rfl

/-- Projection fact for the accesses bump. -/
@[simp] lemma bumpAccs_size (c : CacheState) : (bumpAccs c).size = c.size := rfl

/-- Projection fact for the accesses bump. -/
@[simp] lemma bumpAccs_dir (c : CacheState) : (bumpAccs c).dir = c.dir := rfl

/-- Projection fact for the accesses bump. -/
@[simp] lemma bumpAccs_shm (c : CacheState) : (bumpAccs c).shm = c.shm := rfl

/-- Projection fact for the accesses bump. -/
@[simp] lemma bumpAccs_nAccs (c : CacheState) :
    (bumpAccs c).nAccs = add64 c.nAccs 1 := rfl

/-- Projection fact for the accesses bump. -/
@[simp] lemma bumpAccs_nHits (c : CacheState) :
    (bumpAccs c).nHits = c.nHits := rfl

/-- Projection fact for the accesses bump. -/
@[simp] lemma bumpAccs_nMissCold (c : CacheState) :
    (bumpAccs c).nMissCold = c.nMissCold := rfl

/-- Projection fact for the accesses bump. -/
@[simp] lemma bumpAccs_nMissCapacity (c : CacheState) :
    (bumpAccs c).nMissCapacity = c.nMissCapacity := rfl

/-- Projection fact for the accesses bump. -/
@[simp] lemma bumpAccs_nFail (c : CacheState) :
    (bumpAccs c).nFail = c.nFail := rfl

/-- Environment in which every shm and mmap call succeeds. -/
def envOk : Env :=
  { shmOpenOk := true, ftruncateOk := true, mmapOk := true, errno := 13,
    file := none }

/-- Small freshly initialised cache used by the concrete witnesses. -/
def emptyCache : CacheState :=
  { size := 100, maxItemSize := 100, maxHtEntries := 4, used := 0,
    nHtEntries := 0, dir := [], shm := [], nAccs := 0, nHits := 0,
    nMissCold := 0, nMissCapacity := 0, nFail := 0 }

/-- C1: if cache_store of n bytes at path p succeeds, an immediately
subsequent cache_load of p with capacity n returns ok, writes n to the size
out-parameter, and hands back exactly the first n stored bytes. Paths range
over the spec's key domain (at most MAX_PATH_LEN characters), and a failing
POSIX call is assumed to set a nonzero errno. -/
theorem store_then_load_roundtrip (env : Env) (c : CacheState) (p : List Char)
    (d : List Nat) (n : Nat) (henv : 0 < env.errno)
    (hp : p.length ≤ MAX_PATH_LEN) (_hn : 0 < n)
    (hok : (cache_store env c p d n).1 = 0) :
    cache_load (cache_store env c p d n).2 p n =
      (0, some n, some (d.take n)) := by
  obtain ⟨h1, h2, h3, h4, h5, h6⟩ := cache_store_ok_elim env c p d n henv hok
  rw [cache_store_success env c p d n h1 h2 h3 h4 h5 h6]
  have hpath : strncpyPath p = p := List.take_of_length_le hp
  have hfind : dirLookup
      (({ path := strncpyPath p, size := n,
          shmPath := shmPathOf p } : HashEntry) :: c.dir) p =
      some ({ path := strncpyPath p, size := n,
              shmPath := shmPathOf p } : HashEntry) :=
    dirLookup_cons_of_eq c.dir _ p hpath
  rw [cache_load_found _ _ _ _ hfind]
  dsimp only
  rw [if_neg (lt_irrefl n), shmLookup_shmSet]
  simp [List.take_take]

/-- C1 witness: a concrete successful store of three bytes loads back those
three bytes with the size out-parameter set to three. -/
theorem store_then_load_roundtrip_witness :
    0 < envOk.errno ∧ (['a', 'b'] : List Char).length ≤ MAX_PATH_LEN ∧
    0 < 3 ∧ (cache_store envOk emptyCache ['a', 'b'] [1, 2, 3] 3).1 = 0 ∧
    cache_load (cache_store envOk emptyCache ['a', 'b'] [1, 2, 3] 3).2
      ['a', 'b'] 3 = (0, some 3, some [1, 2, 3]) :=
  ⟨by decide, by decide, by decide, by decide,
    store_then_load_roundtrip envOk emptyCache ['a', 'b'] [1, 2, 3] 3
      (by decide) (by decide) (by decide) (by decide)⟩

/-- Cache configured with max_item_size zero. -/
def zeroMaxCache : CacheState := { emptyCache with maxItemSize := 0 }

/-- C2 counterexample: with max_item_size configured to 0 the code rejects
a one-byte item with E2BIG, so M = 0 does not mean unlimited as the claim
asserts. -/
theorem store_e2big_zero_max_counterexample :
    zeroMaxCache.maxItemSize = 0 ∧
    (cache_store envOk zeroMaxCache ['a'] [5] 1).1 = -(E2BIG : Int) := by
  exact ⟨rfl, by decide⟩

/-- C2 (amended): cache_store returns E2BIG exactly when size exceeds the
configured max_item_size M, for every M including M = 0 (a zero M admits
only zero-sized items); an item of exactly M bytes passes the size gate and
is admitted whenever a slot, byte capacity, and the segment calls are
available, while an item of M + 1 bytes is rejected with E2BIG. -/
theorem store_e2big_iff (env : Env) (c : CacheState) (p : List Char)
    (d : List Nat) (n : Nat) (henv : env.wf) :
    ((cache_store env c p d n).1 = -(E2BIG : Int) ↔ c.maxItemSize < n) ∧
    (n = c.maxItemSize → c.nHtEntries < c.maxHtEntries →
      add64 c.used n ≤ c.size → env.shmOpenOk = true →
      env.ftruncateOk = true → env.mmapOk = true →
      (cache_store env c p d n).1 = 0) := by
  obtain ⟨he0, he7⟩ := henv
  constructor
  · constructor
    · intro h
      by_contra hn
      push_neg at hn
      unfold cache_store at h
      rw [if_neg (by omega)] at h
      split_ifs at h
      · exact absurd h (by norm_num [ENOMEM, E2BIG])
      · exact absurd h (by norm_num [ENOMEM, E2BIG])
      · simp only [neg_inj, Nat.cast_inj] at h
        exact he7 h
      · simp only [neg_inj, Nat.cast_inj] at h
        exact he7 h
      · exact absurd h (by norm_num [ENOMEM, E2BIG])
      · exact absurd h (by norm_num [E2BIG])
    · intro h
      unfold cache_store
      rw [if_pos h]
  · intro hEq h2 h3 h4 h5 h6
    rw [cache_store_success env c p d n (by omega) h2 h3 h4 h5 h6]

/-- Cache configured with max_item_size four. -/
def smallMaxCache : CacheState := { emptyCache with maxItemSize := 4 }

/-- C2 witness: at max_item_size 4, a five-byte store is rejected with
E2BIG by the amended boundary characterisation. -/
theorem store_e2big_iff_witness :
    envOk.wf ∧
    (((cache_store envOk smallMaxCache ['a'] [1, 2, 3, 4, 5] 5).1 =
        -(E2BIG : Int) ↔ smallMaxCache.maxItemSize < 5) ∧
      (5 = smallMaxCache.maxItemSize →
        smallMaxCache.nHtEntries < smallMaxCache.maxHtEntries →
        add64 smallMaxCache.used 5 ≤ smallMaxCache.size →
        envOk.shmOpenOk = true → envOk.ftruncateOk = true →
        envOk.mmapOk = true →
        (cache_store envOk smallMaxCache ['a'] [1, 2, 3, 4, 5] 5).1 = 0)) :=
  ⟨⟨by decide, by decide⟩,
    store_e2big_iff envOk smallMaxCache ['a'] [1, 2, 3, 4, 5] 5
      ⟨by decide, by decide⟩⟩

/-- C3: when the byte reservation overshoots capacity (the pre-reservation
used value plus size exceeds C, with no size_t overflow), cache_store
returns OUT_OF_SPACE (the negative ENOMEM sentinel), used is rolled back by
the atomic subtract so its net change is zero, and the already bumped entry
slot counter stays incremented, reset only by the next cache_flush. -/
theorem store_capacity_rollback (env : Env) (c : CacheState) (p : List Char)
    (d : List Nat) (n : Nat)
    (hsz : n ≤ c.maxItemSize) (hslot : c.nHtEntries < c.maxHtEntries)
    (hcnt : c.nHtEntries + 1 < W64) (hu : c.used < W64)
    (hadd : c.used + n < W64) (hover : c.size < c.used + n) :
    (cache_store env c p d n).1 = -(ENOMEM : Int) ∧
    (cache_store env c p d n).2.used = c.used ∧
    (cache_store env c p d n).2.nHtEntries = c.nHtEntries + 1 ∧
    (cache_flush (cache_store env c p d n).2).nHtEntries = 0 := by
  have hcond : c.size < add64 c.used n := by
    rw [add64_eq_of_lt hadd]
    exact hover
  unfold cache_store
  rw [if_neg (by omega), if_neg (by omega), if_pos hcond]
  refine ⟨rfl, ?_, ?_, rfl⟩
  · dsimp only
    exact sub64_add64_cancel n hu
  · dsimp only
    exact add64_eq_of_lt hcnt

/-- Cache with eight of ten capacity bytes already reserved. -/
def nearFullCache : CacheState := { emptyCache with size := 10, used := 8 }

/-- C3 witness: reserving five more bytes in a 10-byte cache holding eight
fails with ENOMEM, restores used to eight, and leaves the slot counter at
one until flush resets it. -/
theorem store_capacity_rollback_witness :
    5 ≤ nearFullCache.maxItemSize ∧
    nearFullCache.nHtEntries < nearFullCache.maxHtEntries ∧
    nearFullCache.nHtEntries + 1 < W64 ∧ nearFullCache.used < W64 ∧
    nearFullCache.used + 5 < W64 ∧ nearFullCache.size < nearFullCache.used + 5 ∧
    ((cache_store envOk nearFullCache ['a'] [1, 2, 3, 4, 5] 5).1 =
      -(ENOMEM : Int) ∧
    (cache_store envOk nearFullCache ['a'] [1, 2, 3, 4, 5] 5).2.used =
      nearFullCache.used ∧
    (cache_store envOk nearFullCache ['a'] [1, 2, 3, 4, 5] 5).2.nHtEntries =
      nearFullCache.nHtEntries + 1 ∧
    (cache_flush
      (cache_store envOk nearFullCache ['a'] [1, 2, 3, 4, 5] 5).2).nHtEntries
      = 0) :=
  ⟨by decide, by decide, by decide, by decide, by decide, by decide,
    store_capacity_rollback envOk nearFullCache ['a'] [1, 2, 3, 4, 5] 5
      (by decide) (by decide) (by decide) (by decide) (by decide) (by decide)⟩

/-- C4: when the backing file opens and has a usable size but the embedded
store step of cache_read fails for any reason, cache_read bumps
capacity_misses, leaves fails untouched, and still returns the file's true
size as a non-negative result. The store step is the exact call cache_read
makes, on the state whose accesses counter was already bumped. -/
theorem read_admission_failure_serves_file (env : Env) (c : CacheState)
    (p : List Char) (maxSize : Nat) (f : List Nat)
    (hmiss : dirLookup c.dir p = none) (hfile : env.file = some f)
    (hpos : 0 < f.length) (hmax : f.length ≤ maxSize)
    (hstore : (cache_store env (bumpAccs c) p f f.length).1 < 0) :
    (cache_read env c p maxSize).1 = (f.length : Int) ∧
    0 ≤ (cache_read env c p maxSize).1 ∧
    (cache_read env c p maxSize).2.nMissCapacity = add64 c.nMissCapacity 1 ∧
    (cache_read env c p maxSize).2.nFail = c.nFail := by
  rw [cache_read_miss_eq env c p maxSize f hmiss hfile hpos hmax]
  unfold storeOutcome
  rw [if_pos hstore]
  obtain ⟨hA, hH, hCo, hCa, hF⟩ :=
    cache_store_stats_fixed env (bumpAccs c) p f f.length
  refine ⟨rfl, by positivity, ?_, ?_⟩
  · dsimp only
    rw [hCa, bumpAccs_nMissCapacity]
  · dsimp only
    rw [hF, bumpAccs_nFail]

/-- Environment whose shm_open fails with errno 13 while the backing file
holds three bytes. -/
def envNoShm : Env :=
  { shmOpenOk := false, ftruncateOk := true, mmapOk := true, errno := 13,
    file := some [5, 6, 7] }

/-- C4 witness: with shm_open failing, a three-byte file is still served
with its size, capacity_misses becomes one, and fails stays zero. -/
theorem read_admission_failure_serves_file_witness :
    dirLookup emptyCache.dir ['a'] = none ∧
    envNoShm.file = some [5, 6, 7] ∧
    (cache_store envNoShm (bumpAccs emptyCache) ['a'] [5, 6, 7] 3).1 < 0 ∧
    ((cache_read envNoShm emptyCache ['a'] 10).1 = ((3 : Nat) : Int) ∧
     0 ≤ (cache_read envNoShm emptyCache ['a'] 10).1 ∧
     (cache_read envNoShm emptyCache ['a'] 10).2.nMissCapacity =
       add64 emptyCache.nMissCapacity 1 ∧
     (cache_read envNoShm emptyCache ['a'] 10).2.nFail = emptyCache.nFail) :=
  ⟨by decide, by decide, by decide,
    read_admission_failure_serves_file envNoShm emptyCache ['a'] 10 [5, 6, 7]
      (by decide) (by decide) (by decide) (by decide) (by decide)⟩

/-- Cache whose entry table is exhausted: one slot, already taken. -/
def fullSlotsCache : CacheState :=
  { emptyCache with maxHtEntries := 1, nHtEntries := 1 }

/-- Environment in which shm calls succeed and the backing file holds five
bytes. -/
def envFile5 : Env := { envOk with file := some [9, 9, 9, 9, 9] }

/-- C5 counterexample: with the entry table exhausted, the embedded store
step does fail with the negative ENOMEM sentinel, yet cache_read returns
the file size 5 (not a negative OUT_OF_MEMORY), leaves fails at zero, and
counts the event as a capacity miss instead. -/
theorem read_slot_exhaustion_counterexample :
    (cache_store envFile5 (bumpAccs fullSlotsCache) ['a']
      [9, 9, 9, 9, 9] 5).1 = -(ENOMEM : Int) ∧
    (cache_read envFile5 fullSlotsCache ['a'] 100).1 = 5 ∧
    (cache_read envFile5 fullSlotsCache ['a'] 100).1 ≠ -(ENOMEM : Int) ∧
    (cache_read envFile5 fullSlotsCache ['a'] 100).2.nFail =
      fullSlotsCache.nFail ∧
    (cache_read envFile5 fullSlotsCache ['a'] 100).2.nMissCapacity =
      fullSlotsCache.nMissCapacity + 1 := by
  decide

/-- C5 (amended): entry-slot exhaustion during the admission step of
cache_read is not surfaced to the caller: the embedded cache_store does
return the negative ENOMEM sentinel, but cache_read absorbs it, returns
the file's true size, leaves the fails counter unchanged, and increments
capacity_misses instead. -/
theorem read_slot_exhaustion_absorbed (env : Env) (c : CacheState)
    (p : List Char) (maxSize : Nat) (f : List Nat)
    (hmiss : dirLookup c.dir p = none) (hfile : env.file = some f)
    (hpos : 0 < f.length) (hmax : f.length ≤ maxSize)
    (hfit : f.length ≤ c.maxItemSize)
    (hslot : c.maxHtEntries ≤ c.nHtEntries) :
    (cache_store env (bumpAccs c) p f f.length).1 = -(ENOMEM : Int) ∧
    (cache_read env c p maxSize).1 = (f.length : Int) ∧
    (cache_read env c p maxSize).2.nFail = c.nFail ∧
    (cache_read env c p maxSize).2.nMissCapacity = add64 c.nMissCapacity 1 := by
  have hstore1 :
      (cache_store env (bumpAccs c) p f f.length).1 = -(ENOMEM : Int) := by
    unfold cache_store
    rw [if_neg (by simp only [bumpAccs_maxItemSize]; omega),
        if_pos (by simp only [bumpAccs_maxHtEntries, bumpAccs_nHtEntries]
                   omega)]
  obtain ⟨hA, hH, hCo, hCa, hF⟩ :=
    cache_store_stats_fixed env (bumpAccs c) p f f.length
  have hneg : (cache_store env (bumpAccs c) p f f.length).1 < 0 := by
    rw [hstore1]
    norm_num [ENOMEM]
  refine ⟨hstore1, ?_, ?_, ?_⟩
  · rw [cache_read_miss_eq env c p maxSize f hmiss hfile hpos hmax]
    unfold storeOutcome
    rw [if_pos hneg]
  · rw [cache_read_miss_eq env c p maxSize f hmiss hfile hpos hmax]
    unfold storeOutcome
    rw [if_pos hneg]
    dsimp only
    rw [hF, bumpAccs_nFail]
  · rw [cache_read_miss_eq env c p maxSize f hmiss hfile hpos hmax]
    unfold storeOutcome
    rw [if_pos hneg]
    dsimp only
    rw [hCa, bumpAccs_nMissCapacity]

/-- C5 witness: the amended behaviour at a concrete slot-exhausted cache
reading a five-byte file. -/
theorem read_slot_exhaustion_absorbed_witness :
    dirLookup fullSlotsCache.dir ['b'] = none ∧
    ((cache_store envFile5 (bumpAccs fullSlotsCache) ['b']
        [9, 9, 9, 9, 9] 5).1 = -(ENOMEM : Int) ∧
      (cache_read envFile5 fullSlotsCache ['b'] 100).1 = ((5 : Nat) : Int) ∧
      (cache_read envFile5 fullSlotsCache ['b'] 100).2.nFail =
        fullSlotsCache.nFail ∧
      (cache_read envFile5 fullSlotsCache ['b'] 100).2.nMissCapacity =
        add64 fullSlotsCache.nMissCapacity 1) :=
  ⟨by decide,
    read_slot_exhaustion_absorbed envFile5 fullSlotsCache ['b'] 100
      [9, 9, 9, 9, 9] (by decide) (by decide) (by decide) (by decide)
      (by decide) (by decide)⟩

/-- Admitted ten-byte entry used by the oversize-load scenarios. -/
def bigEntry : HashEntry :=
  { path := ['a'], size := 10, shmPath := shmPathOf ['a'] }

/-- Cache holding one admitted ten-byte entry. -/
def oneEntryCache : CacheState :=
  { emptyCache with
      used := 10,
      nHtEntries := 1,
      dir := [bigEntry],
      shm := [(shmPathOf ['a'], [1, 2, 3, 4, 5, 6, 7, 8, 9, 10])] }

/-- C6 counterexample: a completed cache_read that hits a cached entry
larger than the caller's buffer returns -EINVAL after bumping only the
accesses counter, so hits + cold_misses + capacity_misses + fails = 0 while
accesses = 1, falsifying the claimed equality after every read. -/
theorem read_stats_sum_counterexample :
    (cache_read envOk oneEntryCache ['a'] 5).1 = -(EINVAL : Int) ∧
    (cache_read envOk oneEntryCache ['a'] 5).2.nAccs = 1 ∧
    sumStats (cache_read envOk oneEntryCache ['a'] 5).2 = 0 := by
  decide

/-- C6 (amended): after every completed cache_read except one that returns
-EINVAL because the cached entry exceeds the caller's buffer (the load
TOO_LARGE path, which bumps only accesses), the accesses counter rises by
exactly one and the sum hits + cold_misses + capacity_misses + fails rises
by exactly one, so the equality of the sum with accesses is preserved by
every read that avoids that path. Counter bounds rule out 64-bit wrap. -/
theorem read_stats_delta (env : Env) (c : CacheState) (p : List Char)
    (maxSize : Nat)
    (hA : c.nAccs + 1 < W64) (hH : c.nHits + 1 < W64)
    (hCo : c.nMissCold + 1 < W64) (hCa : c.nMissCapacity + 1 < W64)
    (hF : c.nFail + 1 < W64)
    (hnotTL : ∀ e, dirLookup c.dir p = some e → e.size ≤ maxSize) :
    (cache_read env c p maxSize).2.nAccs = c.nAccs + 1 ∧
    sumStats (cache_read env c p maxSize).2 = sumStats c + 1 := by
  cases hdir : dirLookup c.dir p with
  | some e =>
    rw [cache_read_hit_eq env c p maxSize e hdir (hnotTL e hdir)]
    unfold sumStats
    dsimp only
    rw [add64_eq_of_lt hA, add64_eq_of_lt hH]
    exact ⟨rfl, by omega⟩
  | none =>
    cases hfile : env.file with
    | none =>
      rw [cache_read_nofile_eq env c p maxSize hdir hfile]
      unfold sumStats
      dsimp only
      rw [add64_eq_of_lt hA, add64_eq_of_lt hF]
      exact ⟨rfl, by omega⟩
    | some f =>
      by_cases hbad : maxSize < f.length ∨ f.length = 0
      · rw [cache_read_badsize_eq env c p maxSize f hdir hfile hbad]
        unfold sumStats
        dsimp only
        rw [add64_eq_of_lt hA, add64_eq_of_lt hF]
        exact ⟨rfl, by omega⟩
      · push_neg at hbad
        rw [cache_read_miss_eq env c p maxSize f hdir hfile
          (by omega) (by omega)]
        obtain ⟨sA, sH, sCo, sCa, sF⟩ :=
          cache_store_stats_fixed env (bumpAccs c) p f f.length
        unfold storeOutcome
        split
        · constructor
          · dsimp only
            rw [sA, bumpAccs_nAccs]
            exact add64_eq_of_lt hA
          · unfold sumStats
            dsimp only
            rw [sH, sCo, sCa, sF, bumpAccs_nHits, bumpAccs_nMissCold,
              bumpAccs_nMissCapacity, bumpAccs_nFail, add64_eq_of_lt hCa]
            omega
        · constructor
          · dsimp only
            rw [sA, bumpAccs_nAccs]
            exact add64_eq_of_lt hA
          · unfold sumStats
            dsimp only
            rw [sH, sCo, sCa, sF, bumpAccs_nHits, bumpAccs_nMissCold,
              bumpAccs_nMissCapacity, bumpAccs_nFail, add64_eq_of_lt hCo]
            omega

/-- C6 witness: a read of a three-byte file on the fresh cache raises
accesses from zero to one and the outcome-counter sum from zero to one. -/
theorem read_stats_delta_witness :
    emptyCache.nAccs + 1 < W64 ∧
    ((cache_read envNoShm emptyCache ['c'] 10).2.nAccs =
        emptyCache.nAccs + 1 ∧
      sumStats (cache_read envNoShm emptyCache ['c'] 10).2 =
        sumStats emptyCache + 1) :=
  ⟨by decide,
    read_stats_delta envNoShm emptyCache ['c'] 10 (by decide) (by decide)
      (by decide) (by decide) (by decide) (by decide)⟩

/-- C7: cache_flush empties the directory (contains is false for every path
afterwards), stores zero to used and to the entry-slot counter, and leaves
all five statistics counters and the three configuration fields (capacity,
max item size, entry-table capacity) exactly unchanged. -/
theorem flush_clears_and_keeps_stats (c : CacheState) :
    (∀ p, cache_contains (cache_flush c) p = false) ∧
    (cache_flush c).used = 0 ∧ (cache_flush c).nHtEntries = 0 ∧
    (cache_flush c).nAccs = c.nAccs ∧ (cache_flush c).nHits = c.nHits ∧
    (cache_flush c).nMissCold = c.nMissCold ∧
    (cache_flush c).nMissCapacity = c.nMissCapacity ∧
    (cache_flush c).nFail = c.nFail ∧
    (cache_flush c).size = c.size ∧
    (cache_flush c).maxItemSize = c.maxItemSize ∧
    (cache_flush c).maxHtEntries = c.maxHtEntries :=
  ⟨fun _ => rfl, rfl, rfl, rfl, rfl, rfl, rfl, rfl, rfl, rfl, rfl⟩

/-- Replacing slashes is injective on characters other than underscore. -/
lemma replSlash_inj {a b : Char} (ha : a ≠ '_') (hb : b ≠ '_')
    (h : replSlash a = replSlash b) : a = b := by
  unfold replSlash at h
  split_ifs at h with h1 h2 h2
  · rw [h1, h2]
  · exact absurd h.symm hb
  · exact absurd h ha
  · exact h

/-- Mapping replSlash over underscore-free character lists is injective. -/
lemma map_replSlash_inj : ∀ p q : List Char, '_' ∉ p → '_' ∉ q →
    p.map replSlash = q.map replSlash → p = q
  | [], [], _, _, _ => rfl
  | [], _ :: _, _, _, h => by simp at h
  | _ :: _, [], _, _, h => by simp at h
  | a :: t, b :: u, hp, hq, h => by
    simp only [List.map_cons, List.cons.injEq] at h
    have ha : a ≠ '_' := by
      intro hh
      apply hp
      rw [← hh]
      exact List.mem_cons_self a t
    have hb : b ≠ '_' := by
      intro hh
      apply hq
      rw [← hh]
      exact List.mem_cons_self b u
    have ht : '_' ∉ t := fun hh => hp (List.mem_cons_of_mem _ hh)
    have hu : '_' ∉ u := fun hh => hq (List.mem_cons_of_mem _ hh)
    rw [replSlash_inj ha hb h.1, map_replSlash_inj t u ht hu h.2]

/-- C8 counterexample: the distinct admissible keys "a/b" and "a_b" derive
the same payload segment name, so the naming map is not injective over
distinct admitted keys. -/
theorem shm_name_collision_counterexample :
    shmPathOf ['a', '/', 'b'] = shmPathOf ['a', '_', 'b'] ∧
    (['a', '/', 'b'] : List Char) ≠ ['a', '_', 'b'] := by
  decide

/-- C8 (amended): for every admitted path of at most MAX_PATH_LEN
characters — underscores included — the derived payload segment name equals
a single slash followed by the path with every slash replaced by an
underscore; the mapping is injective over distinct admitted keys only when
they contain no underscore (keys differing only in slash versus underscore
collide). -/
theorem shm_name_formula_and_injectivity (p q : List Char)
    (hp : p.length ≤ MAX_PATH_LEN) (hq : q.length ≤ MAX_PATH_LEN) :
    shmPathOf p = '/' :: p.map replSlash ∧
    ('_' ∉ p → '_' ∉ q → shmPathOf p = shmPathOf q → p = q) := by
  have hp1 : strncpyPath p = p := List.take_of_length_le hp
  have hq1 : strncpyPath q = q := List.take_of_length_le hq
  constructor
  · unfold shmPathOf
    rw [hp1]
  · intro hpu hqu h
    unfold shmPathOf at h
    rw [hp1, hq1] at h
    simp only [List.cons.injEq, true_and] at h
    exact map_replSlash_inj p q hpu hqu h

/-- C8 witness: the amended statement at the concrete keys "a/b" and "c",
the first of which exercises the slash substitution in the formula. -/
theorem shm_name_formula_and_injectivity_witness :
    (['a', '/', 'b'] : List Char).length ≤ MAX_PATH_LEN ∧
    (shmPathOf ['a', '/', 'b'] = '/' :: ['a', '/', 'b'].map replSlash ∧
      ('_' ∉ (['a', '/', 'b'] : List Char) → '_' ∉ (['c'] : List Char) →
        shmPathOf ['a', '/', 'b'] = shmPathOf ['c'] →
        ['a', '/', 'b'] = ['c'])) :=
  ⟨by decide,
    shm_name_formula_and_injectivity ['a', '/', 'b'] ['c'] (by decide)
      (by decide)⟩

/-- C9: for a cold miss on a file of true size s with 0 < s and s within
the caller's buffer, the request length cache_read issues to the backing
file is readRequestLen s = (s ||| 0xFFF) + 1, which is the least multiple
of 4096 strictly greater than s, while the value cache_read returns is the
true size s, not the rounded length. -/
theorem read_rounds_request_returns_true_size (env : Env) (c : CacheState)
    (p : List Char) (maxSize : Nat) (f : List Nat)
    (hmiss : dirLookup c.dir p = none) (hfile : env.file = some f)
    (hpos : 0 < f.length) (hmax : f.length ≤ maxSize) :
    readRequestLen f.length = 4096 * (f.length / 4096 + 1) ∧
    readRequestLen f.length % 4096 = 0 ∧
    f.length < readRequestLen f.length ∧
    (∀ m, f.length < m → m % 4096 = 0 → readRequestLen f.length ≤ m) ∧
    (cache_read env c p maxSize).1 = (f.length : Int) := by
  refine ⟨readRequestLen_eq f.length, ?_, lt_readRequestLen f.length, ?_, ?_⟩
  · rw [readRequestLen_eq]
    simp [Nat.mul_mod_right]
  · intro m hm hmod
    rw [readRequestLen_eq]
    have h1 := Nat.div_add_mod f.length 4096
    have h2 := Nat.div_add_mod m 4096
    have h3 : f.length % 4096 < 4096 := Nat.mod_lt _ (by norm_num)
    omega
  · rw [cache_read_miss_eq env c p maxSize f hmiss hfile hpos hmax]
    unfold storeOutcome
    split
    · rfl
    · rfl

/-- Backing file of exactly 5000 bytes, the spec's rounding example. -/
def file5000 : List Nat := List.replicate 5000 0

/-- Environment serving the 5000-byte file with all shm calls succeeding. -/
def envFile5000 : Env := { envOk with file := some file5000 }

/-- C9 witness: the 5000-byte file issues a request of (5000 ||| 0xFFF) + 1
bytes, which the first conjunct evaluates to 8192, and cache_read returns
5000. -/
theorem read_rounds_request_returns_true_size_witness :
    readRequestLen 5000 = 8192 ∧
    (readRequestLen file5000.length = 4096 * (file5000.length / 4096 + 1) ∧
      readRequestLen file5000.length % 4096 = 0 ∧
      file5000.length < readRequestLen file5000.length ∧
      (∀ m, file5000.length < m → m % 4096 = 0 →
        readRequestLen file5000.length ≤ m) ∧
      (cache_read envFile5000 emptyCache ['a'] 8192).1 =
        (file5000.length : Int)) :=
  ⟨by decide,
    read_rounds_request_returns_true_size envFile5000 emptyCache ['a'] 8192
      file5000 (by decide) rfl (by norm_num [file5000])
      (by norm_num [file5000])⟩

/-- C10: when the path is present with an entry of size s and the caller's
buffer bound max is smaller than s, cache_load writes s to the size
out-parameter before the bounds check, so the failing call still reports
the entry's size: it returns -EINVAL together with the out-parameter set to
s and no data copied. -/
theorem load_too_large_reports_size (c : CacheState) (p : List Char)
    (max : Nat) (e : HashEntry)
    (hfind : dirLookup c.dir p = some e) (hbig : max < e.size) :
    cache_load c p max = (-(EINVAL : Int), some e.size, none) := by
  rw [cache_load_found c p max e hfind, if_pos hbig]

/-- C10 witness: loading the admitted ten-byte entry with a five-byte bound
fails with -EINVAL while the size out-parameter reports ten. -/
theorem load_too_large_reports_size_witness :
    dirLookup oneEntryCache.dir ['a'] = some bigEntry ∧ 5 < bigEntry.size ∧
    cache_load oneEntryCache ['a'] 5 = (-(EINVAL : Int), some bigEntry.size, none) :=
  ⟨by decide, by decide,
    load_too_large_reports_size oneEntryCache ['a'] 5 bigEntry (by decide)
      (by decide)⟩

end Minio
